import Mathlib

set_option maxRecDepth 8000

/-!
Verification of the Heat-Mapping-Robot firmware specification against the
Arduino sources (`src/arduino/robot_physical/robot_physical.ino`,
`src/arduino/robot_physical.ino`, `src/arduino/heat_mapping_robot/heat_mapping_robot.ino`).

Embedding conventions:
* C `float` arithmetic is modelled over `ℚ`.  Every constant and every
  arithmetic operation appearing in the verified claims is exact in `ℚ`
  (thresholds, `0.6/0.4` blends, `*30`, `-360`, halving), so no rounding
  behaviour of binary floats is load-bearing for these claims; `NaN` is
  modelled by `Option` where the source checks `isnan`.
* C `int`/`long` counters are modelled by `ℤ`, loop trip counts by `ℕ`.
* Stateful firmware code (static locals, globals) is modelled by explicit
  state records and step functions; sensor input and the serial byte stream
  are modelled as explicit lists of samples/poll results.
-/

namespace HeatRobot

/-! ## Constants (from the `#define` block of robot_physical.ino) -/

def OBSTACLE_THRESHOLD_CM : ℚ := 25
def STUCK_THRESHOLD_CM : ℚ := 15
def WALL_TARGET_CM : ℚ := 30
def WALL_TOLERANCE_CM : ℚ := 8
def CONSECUTIVE_STUCK_FOR_SWEEP : ℤ := 3
def SWEEP_BINS : ℕ := 12
def DEFAULT_FAR_CM : ℚ := 150
def MAX_DISTANCE_CM : ℚ := 400
def MIN_DISTANCE_CM : ℚ := 2
def MAX_VALID_CM : ℚ := 3000
def SWEEP_MIN_DEG : ℚ := -90
def SWEEP_MAX_DEG : ℚ := 90
def SWEEP_STEP_DEG : ℚ := 10
def BACKEND_CMD_TIMEOUT_MS : ℕ := 3000
def BACKEND_READINGS_MAX : ℕ := 8
def FORWARD_CONE_DEG : ℚ := 15

/-! ## Standalone path planner (`plannerDecide`, robot_physical.ino) -/

/-- Result of one `plannerDecide` call: the two out-parameters
`*out_turn_deg`, `*out_cmd` plus the updated global `consecutiveObstacles`. -/
structure Decision where
  turnDeg : ℚ
  cmd : Char
  counter : ℤ
deriving DecidableEq, Repr

/-- Sanitization applied to the three named sectors at the top of
`plannerDecide`: `if (x <= 0.0f || x > MAX_DISTANCE_CM) x = DEFAULT_FAR_CM`. -/
def plannerSanitize (d : ℚ) : ℚ :=
  if d ≤ 0 ∨ d > MAX_DISTANCE_CM then DEFAULT_FAR_CM else d

/-- Turn-angle normalization in the stuck-recovery branch:
`if (bestAngle > 180.0f) bestAngle -= 360.0f`. -/
def normTurn (a : ℚ) : ℚ := if a > 180 then a - 360 else a

/-- The `for (int i = 1; i < SWEEP_BINS; i++)` best-sector scan, with the
loop counter `i` and the remaining trip count made explicit.  The
accumulator is the running `(best, bestIdx)` pair; a strict `>` comparison
keeps the first sector attaining the maximum. -/
def bestFrom (sweep : Fin 12 → ℚ) : ℕ → ℕ → ℚ × Fin 12 → ℚ × Fin 12
  | 0, _, acc => acc
  | fuel + 1, i, acc =>
    if h : i < 12 then
      bestFrom sweep fuel (i + 1)
        (if sweep ⟨i, h⟩ > acc.1 then (sweep ⟨i, h⟩, ⟨i, h⟩) else acc)
    else acc

/-- Full best-sector scan of the stuck-recovery branch: starts from
`best = sweep_cm[0], bestIdx = 0` and scans sectors `1..11` (11 iterations). -/
def bestScan (sweep : Fin 12 → ℚ) : ℚ × Fin 12 :=
  bestFrom sweep 11 1 (sweep 0, 0)

/-- Layers 2 and 3 of `plannerDecide` (obstacle avoidance, wall following),
reached when the stuck-recovery branch does not return.  `counter` is the
value of `consecutiveObstacles` left behind by layer 1. -/
def plannerTail (forward_cm left_cm right_cm : ℚ) (counter : ℤ) : Decision :=
  if forward_cm < OBSTACLE_THRESHOLD_CM then
    if left_cm > right_cm then ⟨-45, 'L', counter⟩ else ⟨45, 'R', counter⟩
  else if left_cm - WALL_TARGET_CM > WALL_TOLERANCE_CM then ⟨-15, 'L', counter⟩
  else if left_cm - WALL_TARGET_CM < -WALL_TOLERANCE_CM then ⟨15, 'R', counter⟩
  else ⟨0, 'F', counter⟩

/-- `plannerDecide` of robot_physical.ino (standalone mode), with the global
`consecutiveObstacles` passed and returned explicitly.  `sweep` is the raw
`sweep_cm` array; the forward/left/right copies are sanitized, while the
best-sector scan reads the raw array, exactly as in the source. -/
def plannerDecide (sweep : Fin 12 → ℚ) (consecutiveObstacles : ℤ) : Decision :=
  let forward_cm := plannerSanitize (sweep 0)
  let left_cm := plannerSanitize (sweep 3)
  let right_cm := plannerSanitize (sweep 9)
  if forward_cm < STUCK_THRESHOLD_CM then
    if consecutiveObstacles + 1 ≥ CONSECUTIVE_STUCK_FOR_SWEEP then
      let bs := bestScan sweep
      let bestAngle := normTurn ((bs.2 : ℕ) * 30)
      ⟨bestAngle, if bestAngle < 0 then 'L' else 'R', 0⟩
    else
      plannerTail forward_cm left_cm right_cm (consecutiveObstacles + 1)
  else
    plannerTail forward_cm left_cm right_cm 0

/-! ## Sweep collection (`initSweep`, `stepServoAndCollect`, robot_physical.ino) -/

/-- Triangle-wave servo stepping at the top of `stepServoAndCollect`:
advance by `±SWEEP_STEP_DEG`, clamping and reversing at the two extremes. -/
def stepAngle (angle : ℚ) (dir : Bool) : ℚ × Bool :=
  let a := angle + (if dir then SWEEP_STEP_DEG else -SWEEP_STEP_DEG)
  if a ≥ SWEEP_MAX_DEG then (SWEEP_MAX_DEG, false)
  else if a ≤ SWEEP_MIN_DEG then (SWEEP_MIN_DEG, true)
  else (a, dir)

/-- Sanitization of the median result inside `stepServoAndCollect`:
`if (dist < MIN_DISTANCE_CM || dist > MAX_DISTANCE_CM || dist <= 0.0f) dist = DEFAULT_FAR_CM`. -/
def measSanitize (d : ℚ) : ℚ :=
  if d < MIN_DISTANCE_CM ∨ d > MAX_DISTANCE_CM ∨ d ≤ 0 then DEFAULT_FAR_CM else d

/-- Sector classification of `stepServoAndCollect`: forward cone to bin 0,
far left to bin 3, far right to bin 9, otherwise no bin (`bin = -1`). -/
def binForAngle (a : ℚ) : Option (Fin 12) :=
  if -15 ≤ a ∧ a ≤ 15 then some 0
  else if a ≤ -75 then some 3
  else if a ≥ 75 then some 9
  else none

/-- Mutable state of the sweep-collection code: the `currentAngle` and
`sweepDirection` globals and the 12-bin `sweep_cm` array. -/
structure ScanState where
  currentAngle : ℚ
  sweepDirection : Bool
  sweep_cm : Fin 12 → ℚ

/-- One `stepServoAndCollect()` call; `rawDist` is the value returned by
`readDistanceCmMedian(ULTRASONIC_SAMPLES)` at this step.  First write to a
bin (still at the far default) assigns directly; later writes blend with
weights `0.6/0.4`. -/
def stepServoAndCollect (s : ScanState) (rawDist : ℚ) : ScanState :=
  let ad := stepAngle s.currentAngle s.sweepDirection
  let dist := measSanitize rawDist
  match binForAngle ad.1 with
  | none => ⟨ad.1, ad.2, s.sweep_cm⟩
  | some b =>
    let old := s.sweep_cm b
    let v := if old ≥ DEFAULT_FAR_CM - 1 then dist else (6 / 10) * old + (4 / 10) * dist
    ⟨ad.1, ad.2, Function.update s.sweep_cm b v⟩

/-- `initSweep()`: every bin reset to `DEFAULT_FAR_CM` (servo state kept). -/
def initSweep (s : ScanState) : ScanState :=
  ⟨s.currentAngle, s.sweepDirection, fun _ => DEFAULT_FAR_CM⟩

/-- A whole sequence of `stepServoAndCollect()` calls, one per raw median result. -/
def runSweep (s : ScanState) (raws : List ℚ) : ScanState :=
  raws.foldl stepServoAndCollect s

/-! ## Sweep completion (`sweepComplete`, `collectSweepStep`) -/

/-- `stepsOneWay` of `sweepComplete()`:
`(int)((SWEEP_MAX_DEG - SWEEP_MIN_DEG) / SWEEP_STEP_DEG)` (the C cast
truncates; the value is a positive integer, so floor agrees). -/
def stepsOneWay : ℤ := ⌊(SWEEP_MAX_DEG - SWEEP_MIN_DEG) / SWEEP_STEP_DEG⌋

/-- Servo state together with the two static locals of `sweepComplete()`. -/
structure SweepTracker where
  currentAngle : ℚ
  sweepDirection : Bool
  stepCount : ℤ
  reachedMax : Bool
deriving DecidableEq, Repr

/-- One `sweepComplete()` call: latch `reachedMax` when the angle is within
5 degrees of the max extreme, bump `stepCount`, and report completion when
both the step count and the latch are satisfied, resetting the statics. -/
def sweepComplete (t : SweepTracker) : Bool × SweepTracker :=
  let rm := if t.currentAngle ≥ SWEEP_MAX_DEG - 5 then true else t.reachedMax
  let sc := t.stepCount + 1
  let done := rm && decide (sc ≥ stepsOneWay)
  if done then (true, ⟨t.currentAngle, t.sweepDirection, 0, false⟩)
  else (false, ⟨t.currentAngle, t.sweepDirection, sc, rm⟩)

/-- `collectSweepStep()`: `stepServoAndCollect()` (only its servo motion is
relevant here) followed by `sweepComplete()`. -/
def collectSweepStep (t : SweepTracker) : Bool × SweepTracker :=
  let ad := stepAngle t.currentAngle t.sweepDirection
  sweepComplete ⟨ad.1, ad.2, t.stepCount, t.reachedMax⟩

/-- Iterated `collectSweepStep()` over `n` loop iterations, collecting the
sequence of completion flags. -/
def collectRun : ℕ → SweepTracker → List Bool × SweepTracker
  | 0, t => ([], t)
  | n + 1, t =>
    let bt := collectSweepStep t
    let rest := collectRun n bt.2
    (bt.1 :: rest.1, rest.2)

/-! ## Median distance filter (`readDistanceCmMedian`, `sortFloat`) -/

/-- Clamp of the `samples` argument: `if (samples > 8) samples = 8; if (samples < 3) samples = 3`. -/
def clampSamples (samples : ℤ) : ℤ :=
  if samples > 8 then 8 else if samples < 3 then 3 else samples

/-- Validity filter of `readDistanceCmMedian`:
`cm >= MIN_DISTANCE_CM && cm <= MAX_DISTANCE_CM && cm > 0.0f && cm < MAX_VALID_CM`. -/
def isValidSample (cm : ℚ) : Bool :=
  decide (cm ≥ MIN_DISTANCE_CM) && decide (cm ≤ MAX_DISTANCE_CM) &&
    decide (cm > 0) && decide (cm < MAX_VALID_CM)

/-- Inner loop of `sortFloat`: insert `v` into the sorted prefix, shifting
every element strictly greater than `v` one slot right (so `v` lands after
any elements equal to it). -/
def insertShift (v : ℚ) : List ℚ → List ℚ
  | [] => [v]
  | x :: xs => if x > v then v :: x :: xs else x :: insertShift v xs

/-- `sortFloat`: in-place insertion sort, modelled as repeated sorted insertion. -/
def sortFloat (l : List ℚ) : List ℚ :=
  l.foldl (fun acc v => insertShift v acc) []

/-- `readDistanceCmMedian(samples)`; `raw` is the list of successive
`readDistanceCm()` results consumed by the sampling loop.  Valid samples are
collected into the buffer, sorted, and the element at index `valid / 2` is
returned; `0` when no sample is valid. -/
def readDistanceCmMedian (samples : ℤ) (raw : List ℚ) : ℚ :=
  let valid := (raw.take (clampSamples samples).toNat).filter isValidSample
  if valid.isEmpty then 0 else (sortFloat valid).getD (valid.length / 2) 0

/-- The statistical median, following the spec words "the true median of
the valid subset": middle element for odd length, mean of the two middle
elements for even length.  Used to compare the code's result against the
spec's claim. -/
def specTrueMedian (l : List ℚ) : ℚ :=
  let s := sortFloat l
  if l.length % 2 = 1 then s.getD (l.length / 2) 0
  else (s.getD (l.length / 2 - 1) 0 + s.getD (l.length / 2) 0) / 2

/-! ## Downlink command read (`readBackendCommand`) -/

/-- The five-symbol downlink alphabet test of `readBackendCommand`. -/
def isCmdByte (c : Char) : Bool :=
  c == 'F' || c == 'B' || c == 'L' || c == 'R' || c == 'S'

/-- Initial value of the `backendCmd` global: `char backendCmd = 'F';`. -/
def backendCmdInit : Char := 'F'

/-- The polling loop of `readBackendCommand`, one iteration per element of
`polls` (`none`: `Serial.available()` is false; `some c`: the byte read).
Each iteration costs one 10 ms delay; the trip count is passed as fuel.
A byte in the alphabet is returned at once; other bytes are consumed and
ignored; running out of fuel (timeout) returns `backendCmd`. -/
def readLoop (backendCmd : Char) : ℕ → List (Option Char) → Char
  | 0, _ => backendCmd
  | _ + 1, [] => backendCmd
  | n + 1, some c :: rest => if isCmdByte c then c else readLoop backendCmd n rest
  | n + 1, none :: rest => readLoop backendCmd n rest

/-- Number of poll-loop iterations before `millis() - start < timeoutMs`
fails, with each iteration costing the fixed `delay(10)`. -/
def pollIters (timeoutMs : ℕ) : ℕ := (timeoutMs + 9) / 10

/-- `readBackendCommand()` with the timeout, the serial poll results and the
`backendCmd` global made explicit. -/
def readBackendCommand (timeoutMs : ℕ) (polls : List (Option Char)) (backendCmd : Char) : Char :=
  readLoop backendCmd (pollIters timeoutMs) polls

/-! ## Uplink frame (`sendBackendPayload`, robot_physical.ino) -/

/-- `struct PolarReading { float angle; float distance; }`. -/
structure PolarReading where
  angle : ℚ
  distance : ℚ
deriving DecidableEq, Repr

/-- The `lastTempC` / `lastHumPct` globals.  A C float that may be NaN is
modelled as `Option ℚ` with `none` for NaN, so the `isnan` guards of the
source are expressible. -/
structure EnvState where
  lastTempC : Option ℚ
  lastHumPct : Option ℚ
deriving DecidableEq, Repr

/-- Initial values in robot_physical.ino:
`float lastTempC = 20.0f; float lastHumPct = 50.0f;` (not NaN). -/
def envInit : EnvState := ⟨some 20, some 50⟩

/-- The DHT refresh in `loop()`: `if (!isnan(t)) lastTempC = t;` and
likewise for humidity — a failed read (NaN, here `none`) keeps the old value. -/
def dhtUpdate (s : EnvState) (t h : Option ℚ) : EnvState :=
  ⟨match t with | some x => some x | none => s.lastTempC,
   match h with | some x => some x | none => s.lastHumPct⟩

/-- Any sequence of DHT refreshes applied to the initial globals. -/
def envRun (updates : List (Option ℚ × Option ℚ)) : EnvState :=
  updates.foldl (fun s u => dhtUpdate s u.1 u.2) envInit

/-- The Arduino `round` macro: add 0.5 away from zero, truncate to integer. -/
def cRound (x : ℚ) : ℤ := if x ≥ 0 then ⌊x + 1 / 2⌋ else -⌊-x + 1 / 2⌋

/-- One-decimal rounding `round(x * 10) / 10.0` used for every frame field. -/
def roundTo1 (x : ℚ) : ℚ := (cRound (x * 10) : ℚ) / 10

/-- The JSON document built by `sendBackendPayload`, one optional field per
`isnan` guard. -/
structure UplinkFrame where
  timestamp_ms : ℤ
  air_temp_c : Option ℚ
  humidity_pct : Option ℚ
  readings : List PolarReading
deriving DecidableEq, Repr

/-- `sendBackendPayload()`: timestamp, temperature/humidity under `isnan`
guards, and at most `BACKEND_READINGS_MAX` readings rounded to one decimal
(the `isnan/isinf` reading filter never fires over `ℚ`).  `overflow` models
`doc.overflowed()` of the fixed-capacity `StaticJsonDocument`; when set,
the document is rebuilt with only the timestamp and an empty readings array. -/
def sendBackendPayload (elapsedMs : ℤ) (env : EnvState) (polar : List PolarReading)
    (overflow : Bool) : UplinkFrame :=
  if overflow then ⟨elapsedMs, none, none, []⟩
  else
    ⟨elapsedMs, env.lastTempC.map roundTo1, env.lastHumPct.map roundTo1,
      (polar.take BACKEND_READINGS_MAX).map fun r => ⟨roundTo1 r.angle, roundTo1 r.distance⟩⟩

/-! ## Backend-driven command path (robot_physical.ino and heat_mapping_robot.ino) -/

/-- The backend branch of `PHASE_COLLECT_SWEEP` in robot_physical.ino:
`pendingMotorCmd = readBackendCommand(); pendingTurnDeg = (cmd == 'L') ? -45 : (cmd == 'R') ? 45 : 0`.
The first component is the byte later handed to `applyMotorCmd`. -/
def backendCollectTransition (c : Char) : Char × ℚ :=
  (c, if c = 'L' then -45 else if c = 'R' then 45 else 0)

/-- `struct Reading` of heat_mapping_robot.ino, restricted to the two fields
`collisionAvoidance` reads (`temp_c` and `gyro_z` are never consulted there). -/
structure HMReading where
  angle : ℚ
  distance : ℚ
deriving DecidableEq, Repr

/-- The per-reading distance sanitization inside `collisionAvoidance`:
`if (d <= 0 || d > MAX_VALID_CM) d = MAX_DISTANCE_CM`. -/
def hmSanitize (d : ℚ) : ℚ :=
  if d ≤ 0 ∨ d > MAX_VALID_CM then MAX_DISTANCE_CM else d

/-- First loop of `collisionAvoidance`: minimum sanitized distance over the
forward cone `|angle| <= FORWARD_CONE_DEG`, starting from `MAX_DISTANCE_CM`. -/
def fwdMinOf (buf : List HMReading) : ℚ :=
  buf.foldl
    (fun m r =>
      if (if r.angle < 0 then -r.angle else r.angle) ≤ FORWARD_CONE_DEG ∧ hmSanitize r.distance < m
      then hmSanitize r.distance else m)
    MAX_DISTANCE_CM

/-- Second loop of `collisionAvoidance`: `(bestDist, bestAngle)` over all
readings, strict `>` keeping the first maximum, starting from `(0, 0)`. -/
def bestOf (buf : List HMReading) : ℚ × ℚ :=
  buf.foldl
    (fun acc r => if hmSanitize r.distance > acc.1 then (hmSanitize r.distance, r.angle) else acc)
    (0, 0)

/-- `collisionAvoidance(buf, n, &cmd)` of heat_mapping_robot.ino: leaves
`cmd` untouched when no forward obstacle is close, otherwise overwrites it
with `'R'` when the clearest angle is negative, else `'L'`. -/
def collisionAvoidance (buf : List HMReading) (cmd : Char) : Char :=
  if fwdMinOf buf ≥ OBSTACLE_THRESHOLD_CM then cmd
  else if (bestOf buf).2 < 0 then 'R' else 'L'

/-- The `PHASE_COLLECT` completion path of heat_mapping_robot.ino:
`pendingMotorCmd = readBackendCommand(); collisionAvoidance(buffer, SEND_CHUNK, &pendingMotorCmd);`
— the byte handed to `applyMotorCmd` in `PHASE_MOVE`. -/
def hmAppliedCommand (buf : List HMReading) (downlink : Char) : Char :=
  collisionAvoidance buf downlink

/-! ## Concrete inputs used by witnesses and counterexamples -/

/-- Sector profile of the spec's stuck-recovery test vector:
forward 10, left 40, right 20, all other sectors at the far default. -/
def exStuckSweep : Fin 12 → ℚ :=
  fun i => if i = 0 then 10 else if i = 3 then 40 else if i = 9 then 20 else 150

/-- Sector profile of the spec's obstacle-avoidance test vector:
forward 20, left 50, right 10. -/
def exAvoidSweep : Fin 12 → ℚ :=
  fun i => if i = 0 then 20 else if i = 3 then 50 else if i = 9 then 10 else 150

/-- Sector profile of the spec's dead-band boundary test vector:
forward 100, left 38. -/
def exWallSweep : Fin 12 → ℚ :=
  fun i => if i = 0 then 100 else if i = 3 then 38 else if i = 9 then 150 else 150

/-- A sweep chunk with a close forward obstacle (10 cm at 0°) and the
clearest direction at -30°. -/
def exObstacleBuf : List HMReading := [⟨0, 10⟩, ⟨-30, 300⟩]

/-- A sweep chunk with no forward obstacle. -/
def exClearBuf : List HMReading := [⟨0, 100⟩]

end HeatRobot

namespace HeatRobot

/-! ## Helper lemmas about the planner -/

theorem plannerTail_counter (f l r : ℚ) (c : ℤ) : (plannerTail f l r c).counter = c := by
  unfold plannerTail
  split_ifs <;> rfl

theorem plannerTail_obstacle (f l r : ℚ) (c : ℤ) (h : f < OBSTACLE_THRESHOLD_CM) :
    plannerTail f l r c = if l > r then ⟨-45, 'L', c⟩ else ⟨45, 'R', c⟩ := by
  unfold plannerTail
  rw [if_pos h]

theorem normTurn_range (n : ℕ) (hn : n ≤ 11) :
    -180 < normTurn ((n : ℚ) * 30) ∧ normTurn ((n : ℚ) * 30) ≤ 180 := by
  have h0 : (0 : ℚ) ≤ (n : ℚ) := Nat.cast_nonneg n
  have h11 : (n : ℚ) ≤ 11 := by exact_mod_cast hn
  unfold normTurn
  split_ifs with h
  · constructor <;> linarith
  · push_neg at h
    constructor <;> linarith

theorem bestFrom_spec (sweep : Fin 12 → ℚ) :
    ∀ (fuel i : ℕ) (b : ℚ) (j : Fin 12),
      (j : ℕ) < i → b = sweep j →
      (∀ k : Fin 12, (k : ℕ) < i → sweep k ≤ b) →
      (∀ k : Fin 12, k < j → sweep k < b) →
      12 ≤ i + fuel →
      (bestFrom sweep fuel i (b, j)).1 = sweep (bestFrom sweep fuel i (b, j)).2 ∧
      (∀ k : Fin 12, sweep k ≤ (bestFrom sweep fuel i (b, j)).1) ∧
      (∀ k : Fin 12, k < (bestFrom sweep fuel i (b, j)).2 →
        sweep k < (bestFrom sweep fuel i (b, j)).1) := by
  intro fuel
  induction fuel with
  | zero =>
    intro i b j hj hb hmax hfirst htot
    simp only [bestFrom]
    exact ⟨hb, fun k => hmax k (lt_of_lt_of_le k.isLt (by omega)), hfirst⟩
  | succ n ih =>
    intro i b j hj hb hmax hfirst htot
    simp only [bestFrom]
    by_cases h : i < 12
    · rw [dif_pos h]
      by_cases hgt : sweep ⟨i, h⟩ > b
      · rw [if_pos hgt]
        apply ih (i + 1) (sweep ⟨i, h⟩) ⟨i, h⟩
        · exact Nat.lt_succ_self i
        · rfl
        · intro k hk
          rcases Nat.lt_succ_iff_lt_or_eq.mp hk with hk' | hk'
          · exact le_of_lt (lt_of_le_of_lt (hmax k hk') hgt)
          · have hke : k = (⟨i, h⟩ : Fin 12) := Fin.ext hk'
            rw [hke]
        · intro k hk
          exact lt_of_le_of_lt (hmax k (Fin.lt_def.mp hk)) hgt
        · omega
      · rw [if_neg hgt]
        apply ih (i + 1) b j
        · omega
        · exact hb
        · intro k hk
          rcases Nat.lt_succ_iff_lt_or_eq.mp hk with hk' | hk'
          · exact hmax k hk'
          · have hke : k = (⟨i, h⟩ : Fin 12) := Fin.ext hk'
            rw [hke]
            exact le_of_not_lt hgt
        · exact hfirst
        · omega
    · rw [dif_neg h]
      exact ⟨hb, fun k => hmax k (by omega), hfirst⟩

theorem bestScan_spec (sweep : Fin 12 → ℚ) :
    (bestScan sweep).1 = sweep (bestScan sweep).2 ∧
    (∀ k : Fin 12, sweep k ≤ (bestScan sweep).1) ∧
    (∀ k : Fin 12, k < (bestScan sweep).2 → sweep k < (bestScan sweep).1) := by
  unfold bestScan
  apply bestFrom_spec sweep 11 1 (sweep 0) 0
  · decide
  · rfl
  · intro k hk
    have : k = 0 := by
      apply Fin.ext
      simpa using hk
    rw [this]
  · intro k hk
    exact absurd (Fin.lt_def.mp hk) (Nat.not_lt_zero _)
  · omega

/-! ## Claim C1: stuck-recovery layer -/

/-- C1.  Stuck-recovery layer of `plannerDecide`: whenever the sanitized
forward sector is below `STUCK_THRESHOLD_CM` the stuck counter is
incremented; on the call where the incremented counter reaches
`CONSECUTIVE_STUCK_FOR_SWEEP = 3` the counter is reset to 0 and the result
is fully determined by the best-sector scan — the turn angle is
`bestIdx * 30` normalized into `(-180, 180]`, the command is `'L'` iff that
angle is negative and `'R'` otherwise, and the obstacle-avoidance and
wall-following layers are skipped; the best sector attains the maximum of
all 12 raw sector values and is the first sector doing so in scan order.
When forward is not below the threshold, the returned counter is 0. -/
theorem plannerDecide_stuck_recovery (sweep : Fin 12 → ℚ) (counter : ℤ) :
    (plannerSanitize (sweep 0) < STUCK_THRESHOLD_CM →
      counter + 1 < CONSECUTIVE_STUCK_FOR_SWEEP →
      (plannerDecide sweep counter).counter = counter + 1) ∧
    (plannerSanitize (sweep 0) < STUCK_THRESHOLD_CM →
      counter + 1 ≥ CONSECUTIVE_STUCK_FOR_SWEEP →
      plannerDecide sweep counter =
        ⟨normTurn (((bestScan sweep).2 : ℕ) * 30),
          if normTurn (((bestScan sweep).2 : ℕ) * 30) < 0 then 'L' else 'R', 0⟩ ∧
      (∀ k : Fin 12, sweep k ≤ sweep (bestScan sweep).2) ∧
      (∀ k : Fin 12, k < (bestScan sweep).2 → sweep k < sweep (bestScan sweep).2) ∧
      -180 < (plannerDecide sweep counter).turnDeg ∧
      (plannerDecide sweep counter).turnDeg ≤ 180) ∧
    (¬ plannerSanitize (sweep 0) < STUCK_THRESHOLD_CM →
      (plannerDecide sweep counter).counter = 0) := by
  obtain ⟨hbs1, hbs2, hbs3⟩ := bestScan_spec sweep
  refine ⟨?_, ?_, ?_⟩
  · intro hf hc
    simp only [plannerDecide]
    rw [if_pos hf, if_neg (not_le.mpr hc)]
    exact plannerTail_counter _ _ _ _
  · intro hf hc
    have heq : plannerDecide sweep counter =
        ⟨normTurn (((bestScan sweep).2 : ℕ) * 30),
          if normTurn (((bestScan sweep).2 : ℕ) * 30) < 0 then 'L' else 'R', 0⟩ := by
      simp only [plannerDecide]
      rw [if_pos hf, if_pos hc]
    refine ⟨heq, fun k => hbs1 ▸ hbs2 k, fun k hk => hbs1 ▸ hbs3 k hk, ?_, ?_⟩
    · rw [heq]
      exact (normTurn_range _ (Fin.is_le _)).1
    · rw [heq]
      exact (normTurn_range _ (Fin.is_le _)).2
  · intro hf
    simp only [plannerDecide]
    rw [if_neg hf]
    exact plannerTail_counter _ _ _ _

/-- Witness for C1 at the spec's stuck-recovery vector (forward 10, left 40,
right 20, counter already at 2): the layer fires, resets the counter and
turns toward the first far sector (index 1, 30 degrees, `'R'`). -/
theorem plannerDecide_stuck_recovery_witness :
    plannerSanitize (exStuckSweep 0) < STUCK_THRESHOLD_CM ∧
    (2 : ℤ) + 1 ≥ CONSECUTIVE_STUCK_FOR_SWEEP ∧
    plannerDecide exStuckSweep 2 =
      ⟨normTurn (((bestScan exStuckSweep).2 : ℕ) * 30),
        if normTurn (((bestScan exStuckSweep).2 : ℕ) * 30) < 0 then 'L' else 'R', 0⟩ ∧
    plannerDecide exStuckSweep 2 = ⟨30, 'R', 0⟩ :=
  ⟨by with_unfolding_all decide, by with_unfolding_all decide,
    ((plannerDecide_stuck_recovery exStuckSweep 2).2.1 (by with_unfolding_all decide)
      (by with_unfolding_all decide)).1,
    by with_unfolding_all decide⟩

/-! ## Claim C5: wall-following layer -/

/-- C5.  Wall-following layer: when the sanitized forward sector is at
least `OBSTACLE_THRESHOLD_CM` (so neither stuck-recovery nor obstacle
avoidance fires), the decision is `TurnLeft` by 15 degrees when
`left - WALL_TARGET_CM > WALL_TOLERANCE_CM`, `TurnRight` by 15 degrees when
the error is below `-WALL_TOLERANCE_CM`, and `Forward` with zero turn
otherwise — including both exact dead-band boundaries. -/
theorem plannerDecide_wall_following (sweep : Fin 12 → ℚ) (counter : ℤ)
    (hf : OBSTACLE_THRESHOLD_CM ≤ plannerSanitize (sweep 0)) :
    (plannerSanitize (sweep 3) - WALL_TARGET_CM > WALL_TOLERANCE_CM →
      plannerDecide sweep counter = ⟨-15, 'L', 0⟩) ∧
    (plannerSanitize (sweep 3) - WALL_TARGET_CM < -WALL_TOLERANCE_CM →
      plannerDecide sweep counter = ⟨15, 'R', 0⟩) ∧
    (-WALL_TOLERANCE_CM ≤ plannerSanitize (sweep 3) - WALL_TARGET_CM →
      plannerSanitize (sweep 3) - WALL_TARGET_CM ≤ WALL_TOLERANCE_CM →
      plannerDecide sweep counter = ⟨0, 'F', 0⟩) := by
  have hst : ¬ plannerSanitize (sweep 0) < STUCK_THRESHOLD_CM := by
    refine not_lt.mpr (le_trans ?_ hf)
    unfold STUCK_THRESHOLD_CM OBSTACLE_THRESHOLD_CM
    norm_num
  have hob : ¬ plannerSanitize (sweep 0) < OBSTACLE_THRESHOLD_CM := not_lt.mpr hf
  refine ⟨?_, ?_, ?_⟩
  · intro h1
    simp only [plannerDecide]
    rw [if_neg hst]
    unfold plannerTail
    rw [if_neg hob, if_pos h1]
  · intro h1
    have hno : ¬ plannerSanitize (sweep 3) - WALL_TARGET_CM > WALL_TOLERANCE_CM := by
      refine not_lt.mpr (le_trans (le_of_lt h1) ?_)
      unfold WALL_TOLERANCE_CM
      norm_num
    simp only [plannerDecide]
    rw [if_neg hst]
    unfold plannerTail
    rw [if_neg hob, if_neg hno, if_pos h1]
  · intro h1 h2
    simp only [plannerDecide]
    rw [if_neg hst]
    unfold plannerTail
    rw [if_neg hob, if_neg (not_lt.mpr h2), if_neg (not_lt.mpr h1)]

/-- Witness for C5 at the spec's dead-band boundary vector (forward 100,
left 38, error exactly 8): the decision is Forward with zero turn. -/
theorem plannerDecide_wall_following_witness :
    OBSTACLE_THRESHOLD_CM ≤ plannerSanitize (exWallSweep 0) ∧
    -WALL_TOLERANCE_CM ≤ plannerSanitize (exWallSweep 3) - WALL_TARGET_CM ∧
    plannerSanitize (exWallSweep 3) - WALL_TARGET_CM ≤ WALL_TOLERANCE_CM ∧
    plannerDecide exWallSweep 0 = ⟨0, 'F', 0⟩ :=
  ⟨by with_unfolding_all decide, by with_unfolding_all decide, by with_unfolding_all decide,
    (plannerDecide_wall_following exWallSweep 0 (by with_unfolding_all decide)).2.2
      (by with_unfolding_all decide) (by with_unfolding_all decide)⟩

/-! ## Claim C6: obstacle-avoidance layer -/

/-- C6.  Obstacle-avoidance layer: when the sanitized forward sector is
below `OBSTACLE_THRESHOLD_CM` and the stuck-recovery layer does not fire,
the decision is a 45-degree turn toward the larger sanitized side sector —
`TurnLeft` (turn -45) when left > right, else `TurnRight` (turn +45), so an
exact tie resolves to `TurnRight`. -/
theorem plannerDecide_obstacle_avoidance (sweep : Fin 12 → ℚ) (counter : ℤ)
    (hf : plannerSanitize (sweep 0) < OBSTACLE_THRESHOLD_CM)
    (hns : plannerSanitize (sweep 0) < STUCK_THRESHOLD_CM →
      counter + 1 < CONSECUTIVE_STUCK_FOR_SWEEP) :
    (plannerSanitize (sweep 3) > plannerSanitize (sweep 9) →
      (plannerDecide sweep counter).cmd = 'L' ∧ (plannerDecide sweep counter).turnDeg = -45) ∧
    (plannerSanitize (sweep 3) ≤ plannerSanitize (sweep 9) →
      (plannerDecide sweep counter).cmd = 'R' ∧ (plannerDecide sweep counter).turnDeg = 45) := by
  have htail : ∀ c : ℤ, plannerTail (plannerSanitize (sweep 0)) (plannerSanitize (sweep 3))
      (plannerSanitize (sweep 9)) c =
      if plannerSanitize (sweep 3) > plannerSanitize (sweep 9)
      then ⟨-45, 'L', c⟩ else ⟨45, 'R', c⟩ :=
    fun c => plannerTail_obstacle _ _ _ c hf
  by_cases hst : plannerSanitize (sweep 0) < STUCK_THRESHOLD_CM
  · have hform : plannerDecide sweep counter =
        if plannerSanitize (sweep 3) > plannerSanitize (sweep 9)
        then ⟨-45, 'L', counter + 1⟩ else ⟨45, 'R', counter + 1⟩ := by
      simp only [plannerDecide]
      rw [if_pos hst, if_neg (not_le.mpr (hns hst))]
      exact htail _
    constructor
    · intro hlr
      rw [hform, if_pos hlr]
      exact ⟨rfl, rfl⟩
    · intro hlr
      rw [hform, if_neg (not_lt.mpr hlr)]
      exact ⟨rfl, rfl⟩
  · have hform : plannerDecide sweep counter =
        if plannerSanitize (sweep 3) > plannerSanitize (sweep 9)
        then ⟨-45, 'L', 0⟩ else ⟨45, 'R', 0⟩ := by
      simp only [plannerDecide]
      rw [if_neg hst]
      exact htail _
    constructor
    · intro hlr
      rw [hform, if_pos hlr]
      exact ⟨rfl, rfl⟩
    · intro hlr
      rw [hform, if_neg (not_lt.mpr hlr)]
      exact ⟨rfl, rfl⟩

/-- Witness for C6 at the spec's obstacle-avoidance vector (forward 20,
left 50, right 10, counter 0): the decision is TurnLeft with turn -45. -/
theorem plannerDecide_obstacle_avoidance_witness :
    plannerSanitize (exAvoidSweep 0) < OBSTACLE_THRESHOLD_CM ∧
    plannerSanitize (exAvoidSweep 3) > plannerSanitize (exAvoidSweep 9) ∧
    (plannerDecide exAvoidSweep 0).cmd = 'L' ∧ (plannerDecide exAvoidSweep 0).turnDeg = -45 :=
  ⟨by with_unfolding_all decide, by with_unfolding_all decide,
    (plannerDecide_obstacle_avoidance exAvoidSweep 0 (by with_unfolding_all decide)
      (by with_unfolding_all decide)).1 (by with_unfolding_all decide)⟩

/-! ## Claim C10: the standalone planner only emits F, L or R -/

/-- C10.  For every 12-sector profile and every stuck-counter value the
standalone `plannerDecide` emits one of `'F'`, `'L'`, `'R'` — never
Backward (`'B'`) and never Stop (`'S'`). -/
theorem plannerDecide_cmd_only_FLR (sweep : Fin 12 → ℚ) (counter : ℤ) :
    (plannerDecide sweep counter).cmd = 'F' ∨ (plannerDecide sweep counter).cmd = 'L' ∨
    (plannerDecide sweep counter).cmd = 'R' := by
  unfold plannerDecide plannerTail
  dsimp only
  split_ifs <;> simp

/-! ## Claim C9: sector-profile bounds invariant -/

theorem measSanitize_bounds (d : ℚ) :
    MIN_DISTANCE_CM ≤ measSanitize d ∧ measSanitize d ≤ MAX_DISTANCE_CM := by
  unfold measSanitize
  split_ifs with h
  · unfold MIN_DISTANCE_CM MAX_DISTANCE_CM DEFAULT_FAR_CM
    norm_num
  · push_neg at h
    exact ⟨h.1, h.2.1⟩

theorem runSweep_bounds_aux (raws : List ℚ) :
    ∀ s : ScanState,
      (∀ i, MIN_DISTANCE_CM ≤ s.sweep_cm i ∧ s.sweep_cm i ≤ MAX_DISTANCE_CM) →
      ∀ i, MIN_DISTANCE_CM ≤ (runSweep s raws).sweep_cm i ∧
        (runSweep s raws).sweep_cm i ≤ MAX_DISTANCE_CM := by
  induction raws with
  | nil => exact fun s hs => hs
  | cons d rest ih =>
    intro s hs
    apply ih
    intro i
    unfold stepServoAndCollect
    cases hbin : binForAngle (stepAngle s.currentAngle s.sweepDirection).1 with
    | none =>
      simp only [hbin]
      exact hs i
    | some b =>
      simp only [hbin]
      by_cases hib : i = b
      · subst hib
        rw [Function.update_same]
        obtain ⟨hd1, hd2⟩ := measSanitize_bounds d
        obtain ⟨ho1, ho2⟩ := hs i
        split_ifs with hfirst
        · exact ⟨hd1, hd2⟩
        · constructor <;> [linarith; linarith]
      · rw [Function.update_noteq hib]
        exact hs i

/-- C9.  After `initSweep` and any sequence of `stepServoAndCollect` calls
with arbitrary median results, every one of the 12 sector values lies in
`[MIN_DISTANCE_CM, MAX_DISTANCE_CM]` or equals the far sentinel
`DEFAULT_FAR_CM`, and is strictly positive (over `ℚ` it can also never be
NaN). -/
theorem sector_bounds_invariant (s0 : ScanState) (raws : List ℚ) (i : Fin 12) :
    ((MIN_DISTANCE_CM ≤ (runSweep (initSweep s0) raws).sweep_cm i ∧
        (runSweep (initSweep s0) raws).sweep_cm i ≤ MAX_DISTANCE_CM) ∨
      (runSweep (initSweep s0) raws).sweep_cm i = DEFAULT_FAR_CM) ∧
    0 < (runSweep (initSweep s0) raws).sweep_cm i := by
  have hinit : ∀ j, MIN_DISTANCE_CM ≤ (initSweep s0).sweep_cm j ∧
      (initSweep s0).sweep_cm j ≤ MAX_DISTANCE_CM := by
    intro j
    unfold initSweep MIN_DISTANCE_CM MAX_DISTANCE_CM DEFAULT_FAR_CM
    norm_num
  have h := runSweep_bounds_aux raws (initSweep s0) hinit i
  refine ⟨Or.inl h, ?_⟩
  have h1 := h.1
  unfold MIN_DISTANCE_CM at h1
  linarith

/-! ## Claim C3: sweep completion detection -/

/-- C3 counterexample: starting with freshly reset counters at the maximum
extreme (the state `sweepComplete` itself leaves behind after every
completed sweep), the full 18-step one-way traversal down to
`SWEEP_MIN_DEG` ends without `sweepComplete` ever returning true — the claim
that completion fires once per one-way traversal "including sweeps that
start at the maximum extreme and traverse downward" fails on this sweep. -/
theorem sweepComplete_downward_never_fires :
    (collectRun 18 ⟨90, false, 0, false⟩).1 = List.replicate 18 false ∧
    (collectRun 18 ⟨90, false, 0, false⟩).2.currentAngle = SWEEP_MIN_DEG ∧
    (collectRun 18 ⟨90, false, 0, false⟩).2.stepCount = 18 := by
  with_unfolding_all decide

/-- C3 amended.  `sweepComplete` latches only the maximum extreme
(`currentAngle >= SWEEP_MAX_DEG - 5`): an upward sweep from the minimum
extreme with reset counters completes exactly at step 18 (the expected
one-way step count) and resets its statics, but the following sweep, which
starts at the maximum extreme and traverses downward, does not complete at
the minimum extreme — it first completes at step 36, after traversing back
up to the maximum extreme. -/
theorem sweepComplete_fires_at_max_extreme :
    (collectRun 18 ⟨-90, true, 0, false⟩).1 = List.replicate 17 false ++ [true] ∧
    (collectRun 18 ⟨-90, true, 0, false⟩).2 = ⟨90, false, 0, false⟩ ∧
    (collectRun 36 ⟨90, false, 0, false⟩).1 = List.replicate 35 false ++ [true] ∧
    (collectRun 36 ⟨90, false, 0, false⟩).2 = ⟨90, false, 0, false⟩ := by
  with_unfolding_all decide

/-! ## Claim C4: median measurement -/

theorem insertShift_perm (v : ℚ) (l : List ℚ) : (insertShift v l).Perm (v :: l) := by
  induction l with
  | nil => exact List.Perm.refl _
  | cons x xs ih =>
    unfold insertShift
    split_ifs with h
    · exact List.Perm.refl _
    · exact (ih.cons x).trans (List.Perm.swap v x xs)

theorem insertShift_sorted (v : ℚ) (l : List ℚ) (h : l.Sorted (· ≤ ·)) :
    (insertShift v l).Sorted (· ≤ ·) := by
  induction l with
  | nil => simp [insertShift]
  | cons x xs ih =>
    rw [List.sorted_cons] at h
    unfold insertShift
    split_ifs with hgt
    · rw [List.sorted_cons]
      refine ⟨?_, List.sorted_cons.mpr h⟩
      intro b hb
      rcases List.mem_cons.mp hb with rfl | hb'
      · exact le_of_lt hgt
      · exact le_trans (le_of_lt hgt) (h.1 b hb')
    · rw [List.sorted_cons]
      refine ⟨?_, ih h.2⟩
      intro b hb
      rcases List.mem_cons.mp ((insertShift_perm v xs).mem_iff.mp hb) with rfl | hb'
      · exact le_of_not_lt hgt
      · exact h.1 b hb'

theorem sortFloat_loop_perm :
    ∀ l acc : List ℚ, (l.foldl (fun a v => insertShift v a) acc).Perm (acc ++ l) := by
  intro l
  induction l with
  | nil => intro acc; simp
  | cons x xs ih =>
    intro acc
    simp only [List.foldl_cons]
    refine (ih (insertShift x acc)).trans ?_
    refine (((insertShift_perm x acc).append_right xs).trans ?_)
    exact (@List.perm_middle _ x acc xs).symm

theorem sortFloat_perm (l : List ℚ) : (sortFloat l).Perm l := by
  have h := sortFloat_loop_perm l []
  simpa [sortFloat] using h

theorem sortFloat_loop_sorted :
    ∀ l acc : List ℚ, acc.Sorted (· ≤ ·) →
      (l.foldl (fun a v => insertShift v a) acc).Sorted (· ≤ ·) := by
  intro l
  induction l with
  | nil => exact fun acc h => h
  | cons x xs ih =>
    intro acc h
    simp only [List.foldl_cons]
    exact ih _ (insertShift_sorted x acc h)

theorem sortFloat_sorted (l : List ℚ) : (sortFloat l).Sorted (· ≤ ·) :=
  sortFloat_loop_sorted l [] List.sorted_nil

theorem sortFloat_eq_of_perm {l₁ l₂ : List ℚ} (h : l₁.Perm l₂) : sortFloat l₁ = sortFloat l₂ :=
  List.eq_of_perm_of_sorted ((sortFloat_perm l₁).trans (h.trans (sortFloat_perm l₂).symm))
    (sortFloat_sorted l₁) (sortFloat_sorted l₂)

/-- C4 counterexample: with three raw samples 10, 20, 500, the 500 is
discarded (above `MAX_DISTANCE_CM`), the valid subset `[10, 20]` has even
size, and `readDistanceCmMedian` returns the upper middle element 20 while
the true (statistical) median of the valid subset is 15. -/
theorem readDistanceCmMedian_not_true_median :
    readDistanceCmMedian 3 [10, 20, 500] = 20 ∧
    List.filter isValidSample [10, 20, 500] = [10, 20] ∧
    specTrueMedian [10, 20] = 15 ∧ (20 : ℚ) ≠ 15 := by
  with_unfolding_all decide

/-- C4 amended.  For every sample count and every list of raw measurements
of length at most the clamped count: the result is invariant under
permutation of the raw samples; it is 0 when no sample is valid; when some
sample is valid it is the element at index `valid/2` of the sorted valid
subset (the upper median); and when the valid subset has odd size this
equals the true statistical median of the valid subset. -/
theorem readDistanceCmMedian_spec (samples : ℤ) (raw raw2 : List ℚ)
    (hlen : raw.length ≤ (clampSamples samples).toNat)
    (hlen2 : raw2.length ≤ (clampSamples samples).toNat)
    (hperm : raw.Perm raw2) :
    readDistanceCmMedian samples raw = readDistanceCmMedian samples raw2 ∧
    (raw.filter isValidSample = [] → readDistanceCmMedian samples raw = 0) ∧
    (raw.filter isValidSample ≠ [] →
      readDistanceCmMedian samples raw =
        (sortFloat (raw.filter isValidSample)).getD ((raw.filter isValidSample).length / 2) 0) ∧
    ((raw.filter isValidSample).length % 2 = 1 →
      readDistanceCmMedian samples raw = specTrueMedian (raw.filter isValidSample)) := by
  have htake : raw.take (clampSamples samples).toNat = raw := List.take_of_length_le hlen
  have htake2 : raw2.take (clampSamples samples).toNat = raw2 := List.take_of_length_le hlen2
  have hfp : (raw.filter isValidSample).Perm (raw2.filter isValidSample) :=
    hperm.filter isValidSample
  refine ⟨?_, ?_, ?_, ?_⟩
  · unfold readDistanceCmMedian
    rw [htake, htake2]
    by_cases he : raw.filter isValidSample = []
    · have he2 : raw2.filter isValidSample = [] := by
        rw [he] at hfp
        exact hfp.symm.eq_nil
      rw [he, he2]
    · have he2 : raw2.filter isValidSample ≠ [] := by
        intro hnil
        rw [hnil] at hfp
        exact he hfp.eq_nil
      rw [if_neg (by simpa [List.isEmpty_iff] using he),
        if_neg (by simpa [List.isEmpty_iff] using he2),
        sortFloat_eq_of_perm hfp, hfp.length_eq]
  · intro h
    unfold readDistanceCmMedian
    rw [htake, h]
    simp
  · intro h
    unfold readDistanceCmMedian
    rw [htake]
    rw [if_neg (by simpa [List.isEmpty_iff] using h)]
  · intro hodd
    have hne : raw.filter isValidSample ≠ [] := by
      intro hnil
      rw [hnil] at hodd
      simp at hodd
    unfold readDistanceCmMedian
    rw [htake, if_neg (by simpa [List.isEmpty_iff] using hne)]
    unfold specTrueMedian
    rw [if_pos hodd]

/-- Witness for C4: a permuted sample list gives the same median, and an
all-valid odd-size sample list realizes the true statistical median. -/
theorem readDistanceCmMedian_spec_witness :
    readDistanceCmMedian 5 [10, 20, 500] = readDistanceCmMedian 5 [500, 10, 20] ∧
    readDistanceCmMedian 5 [30, 10, 20] = specTrueMedian (List.filter isValidSample [30, 10, 20]) ∧
    readDistanceCmMedian 5 [30, 10, 20] = 20 :=
  ⟨(readDistanceCmMedian_spec 5 [10, 20, 500] [500, 10, 20] (by with_unfolding_all decide)
      (by with_unfolding_all decide) (by with_unfolding_all decide)).1,
    (readDistanceCmMedian_spec 5 [30, 10, 20] [30, 10, 20] (by with_unfolding_all decide)
      (by with_unfolding_all decide) (List.Perm.refl _)).2.2.2 (by with_unfolding_all decide),
    by with_unfolding_all decide⟩

/-! ## Claim C7: downlink command read -/

theorem readLoop_eq (last : Char) :
    ∀ (n : ℕ) (polls : List (Option Char)),
      readLoop last n polls = (((polls.take n).filterMap id).find? isCmdByte).getD last := by
  intro n
  induction n with
  | zero =>
    intro polls
    simp [readLoop]
  | succ m ih =>
    intro polls
    cases polls with
    | nil => simp [readLoop]
    | cons o rest =>
      cases o with
      | some c =>
        by_cases hc : isCmdByte c
        · simp [readLoop, hc, List.find?]
        · simp only [readLoop, List.take_succ_cons, List.filterMap_cons, id]
          rw [if_neg hc, ih rest]
          rw [List.find?]
          simp [hc]
      | none =>
        simp only [readLoop, List.take_succ_cons, List.filterMap_cons, id]
        exact ih rest

/-- C7.  `readBackendCommand` polls the serial input once per 10 ms slot
until the timeout budget is exhausted: its result is the first byte of the
downlink alphabet among the polls it consumes, every other byte being
discarded without counting as a command; when no alphabet byte arrives
within the budget it returns the `backendCmd` argument — whose initial
global value is `'F'` (Forward), used when no command was ever accepted. -/
theorem readBackendCommand_spec (timeoutMs : ℕ) (polls : List (Option Char)) (backendCmd : Char) :
    readBackendCommand timeoutMs polls backendCmd =
      (((polls.take (pollIters timeoutMs)).filterMap id).find? isCmdByte).getD backendCmd ∧
    backendCmdInit = 'F' :=
  ⟨readLoop_eq backendCmd (pollIters timeoutMs) polls, rfl⟩

/-! ## Claim C2: backend-driven command path -/

/-- C2 counterexample: in heat_mapping_robot.ino the byte returned by the
downlink read (`'F'` here) is passed through `collisionAvoidance` before
reaching the motor-apply step; with a 10 cm forward obstacle and the
clearest direction at -30 degrees the applied byte becomes `'R'` — local
decision logic does modify the downlink command. -/
theorem hmAppliedCommand_overrides_downlink :
    readBackendCommand BACKEND_CMD_TIMEOUT_MS [some 'F'] backendCmdInit = 'F' ∧
    hmAppliedCommand exObstacleBuf
        (readBackendCommand BACKEND_CMD_TIMEOUT_MS [some 'F'] backendCmdInit) = 'R' ∧
    hmAppliedCommand exObstacleBuf
        (readBackendCommand BACKEND_CMD_TIMEOUT_MS [some 'F'] backendCmdInit) ≠
      readBackendCommand BACKEND_CMD_TIMEOUT_MS [some 'F'] backendCmdInit := by
  with_unfolding_all decide

/-- C2 amended.  In robot_physical.ino's backend mode the byte handed to
the motor-apply step equals the downlink-read byte exactly; in
heat_mapping_robot.ino the downlink byte additionally passes through the
onboard `collisionAvoidance` override: it is applied unchanged whenever the
chunk's minimum sanitized forward-cone distance is at least
`OBSTACLE_THRESHOLD_CM`, and is otherwise replaced by `'R'` when the
clearest reading's angle is negative, else `'L'`. -/
theorem backendCommandPath_spec (buf : List HMReading) (c : Char) :
    (backendCollectTransition c).1 = c ∧
    (fwdMinOf buf ≥ OBSTACLE_THRESHOLD_CM → hmAppliedCommand buf c = c) ∧
    (fwdMinOf buf < OBSTACLE_THRESHOLD_CM →
      hmAppliedCommand buf c = if (bestOf buf).2 < 0 then 'R' else 'L') := by
  refine ⟨rfl, ?_, ?_⟩
  · intro h
    unfold hmAppliedCommand collisionAvoidance
    rw [if_pos h]
  · intro h
    unfold hmAppliedCommand collisionAvoidance
    rw [if_neg (not_le.mpr h)]

/-- Witness for C2 (amended): with no forward obstacle in the chunk, even a
Backward byte from the backend is applied unchanged. -/
theorem backendCommandPath_spec_witness :
    fwdMinOf exClearBuf ≥ OBSTACLE_THRESHOLD_CM ∧ hmAppliedCommand exClearBuf 'B' = 'B' :=
  ⟨by with_unfolding_all decide,
    (backendCommandPath_spec exClearBuf 'B').2.1 (by with_unfolding_all decide)⟩

/-! ## Claim C8: uplink frame construction -/

theorem envFold_isSome :
    ∀ (updates : List (Option ℚ × Option ℚ)) (s : EnvState),
      s.lastTempC.isSome = true → s.lastHumPct.isSome = true →
      (updates.foldl (fun s u => dhtUpdate s u.1 u.2) s).lastTempC.isSome = true ∧
      (updates.foldl (fun s u => dhtUpdate s u.1 u.2) s).lastHumPct.isSome = true := by
  intro updates
  induction updates with
  | nil => exact fun s h1 h2 => ⟨h1, h2⟩
  | cons u rest ih =>
    intro s h1 h2
    simp only [List.foldl_cons]
    apply ih
    · cases hu : u.1 with
      | none => simpa [dhtUpdate, hu] using h1
      | some x => simp [dhtUpdate, hu]
    · cases hu : u.2 with
      | none => simpa [dhtUpdate, hu] using h2
      | some x => simp [dhtUpdate, hu]

theorem envRun_isSome (updates : List (Option ℚ × Option ℚ)) :
    (envRun updates).lastTempC.isSome = true ∧ (envRun updates).lastHumPct.isSome = true :=
  envFold_isSome updates envInit rfl rfl

/-- C8 counterexample: with the initial globals — no environment sample
ever successfully taken — the built frame still carries both fields,
holding the rounded defaults 20.0 and 50.0; they are not omitted as the
claim states. -/
theorem sendBackendPayload_defaults_present :
    envRun [] = envInit ∧
    (sendBackendPayload 0 envInit [] false).air_temp_c = some 20 ∧
    (sendBackendPayload 0 envInit [] false).humidity_pct = some 50 := by
  with_unfolding_all decide

/-- C8 amended.  The frame built by `sendBackendPayload` always carries the
elapsed timestamp and at most `BACKEND_READINGS_MAX = 8` readings, each
rounded to one decimal place; the temperature and humidity fields are
always present — the globals start at the defaults 20.0 / 50.0 and are only
overwritten by successful samples, never becoming NaN — and are rounded to
one decimal place; when the document would overflow its fixed capacity the
frame degrades to the timestamp plus an empty readings list (temperature
and humidity omitted) instead of failing. -/
theorem sendBackendPayload_spec (elapsedMs : ℤ) (updates : List (Option ℚ × Option ℚ))
    (polar : List PolarReading) (overflow : Bool) :
    (sendBackendPayload elapsedMs (envRun updates) polar overflow).timestamp_ms = elapsedMs ∧
    (sendBackendPayload elapsedMs (envRun updates) polar overflow).readings.length ≤
      BACKEND_READINGS_MAX ∧
    (overflow = true →
      sendBackendPayload elapsedMs (envRun updates) polar overflow = ⟨elapsedMs, none, none, []⟩) ∧
    (overflow = false →
      (∃ t, (envRun updates).lastTempC = some t ∧
        (sendBackendPayload elapsedMs (envRun updates) polar overflow).air_temp_c =
          some (roundTo1 t)) ∧
      (∃ h, (envRun updates).lastHumPct = some h ∧
        (sendBackendPayload elapsedMs (envRun updates) polar overflow).humidity_pct =
          some (roundTo1 h)) ∧
      (sendBackendPayload elapsedMs (envRun updates) polar overflow).readings =
        (polar.take BACKEND_READINGS_MAX).map
          fun r => ⟨roundTo1 r.angle, roundTo1 r.distance⟩) := by
  obtain ⟨ht, hh⟩ := envRun_isSome updates
  obtain ⟨t, hteq⟩ := Option.isSome_iff_exists.mp ht
  obtain ⟨h, hheq⟩ := Option.isSome_iff_exists.mp hh
  cases overflow with
  | true =>
    refine ⟨rfl, ?_, fun _ => rfl, fun hco => absurd hco (by simp)⟩
    unfold sendBackendPayload BACKEND_READINGS_MAX
    simp
  | false =>
    refine ⟨rfl, ?_, fun hco => absurd hco (by simp), fun _ => ?_⟩
    · unfold sendBackendPayload
      simp only [if_neg Bool.false_ne_true, List.length_map, List.length_take]
      exact min_le_left _ _
    · refine ⟨⟨t, hteq, ?_⟩, ⟨h, hheq, ?_⟩, rfl⟩
      · unfold sendBackendPayload
        simp only [if_neg Bool.false_ne_true, hteq, Option.map_some']
      · unfold sendBackendPayload
        simp only [if_neg Bool.false_ne_true, hheq, Option.map_some']

/-- Witness for C8: the overflow fallback at a concrete input is the
minimal timestamp-only frame. -/
theorem sendBackendPayload_spec_witness :
    sendBackendPayload 7 (envRun []) [⟨0, 10⟩] true = ⟨7, none, none, []⟩ :=
  (sendBackendPayload_spec 7 [] [⟨0, 10⟩] true).2.2.1 rfl

end HeatRobot
